import Mathlib

/-!
Shallow embedding of the report endpoint of the cost-manager service
(`src/routes/report.routes.js`), together with the pieces of the runtime it
relies on (JavaScript `Number(string)` conversion, `Date` month arithmetic)
and the document store state it reads and writes (`users`, `costs`,
`reports` collections).

Modelling conventions:
* JavaScript numbers are modelled as `JsNum`: either `NaN` or an exact
  rational.  The claims only ever copy sums around and test integrality /
  positivity, so exact rationals are faithful on the inputs involved.
* `Number(s)` on strings is modelled by `jsNumber` for the plain decimal
  forms (optional sign, digits, optional fractional part, surrounding
  whitespace, empty string ↦ 0); exotic literal forms (hex, exponent,
  `Infinity`) are outside the modelled input space and map to `NaN`.
* `new Date(y, m0, 1)` is modelled by its normalised (year, month) pair;
  comparing two first-of-month `Date`s with `<` compares their time values,
  which (for a fixed timezone) orders them lexicographically by normalised
  (year, month).
* The wall clock `new Date()` is an explicit `Clock` argument carrying the
  values of `getFullYear()` and `getMonth()` (0-indexed).
* `await X` on store calls is sequential state passing; a `DbOp` trace
  records which store queries the handler issued, in order.
* Mongoose documents serialise with their `_id`; a persisted report carries
  `oid = some n` while the freshly assembled in-memory object has no `_id`
  (`oid = none`).  `ObjectId`s are modelled by a counter.
-/

/-- A JavaScript number: `NaN` or an exact rational value. -/
inductive JsNum where
  | nan : JsNum
  | num : ℚ → JsNum
deriving DecidableEq, Repr

/-- Decimal digit test (`'0'..'9'`). -/
def isDigitCh (c : Char) : Bool := ('0' ≤ c) && (c ≤ '9')

/-- Value of one decimal digit character. -/
def digitVal (c : Char) : ℕ := c.toNat - '0'.toNat

/-- Value of a digit string read as a base-10 natural number. -/
def digitsVal (cs : List Char) : ℕ :=
  cs.foldl (fun acc c => 10 * acc + digitVal c) 0

/-- Value of the numeral `ip.fp` (integer digits, fraction digits) as an
exact rational: `(ip * 10^|fp| + fp) / 10^|fp|`. -/
def decimalVal (ip fp : List Char) : ℚ :=
  mkRat (digitsVal ip * 10 ^ fp.length + digitsVal fp) (10 ^ fp.length)

/--
Parse an unsigned decimal numeral (`digits`, `digits.`, `digits.digits`,
`.digits`); `none` when the characters are not of that shape.
-/
def parseDecimal (cs : List Char) : Option ℚ :=
  let ip := cs.takeWhile isDigitCh
  let rest := cs.dropWhile isDigitCh
  match rest with
  | [] => if ip.isEmpty then none else some (decimalVal ip [])
  | '.' :: fp =>
      if fp.all isDigitCh && !(ip.isEmpty && fp.isEmpty) then
        some (decimalVal ip fp)
      else none
  | _ => none

/-- Whitespace characters stripped by `Number(string)` (the common ones). -/
def isJsWhitespace (c : Char) : Bool :=
  decide (c = ' ' ∨ c = '\t' ∨ c = '\n' ∨ c = '\r')

/-- Strip leading and trailing whitespace from a character list. -/
def trimChars (cs : List Char) : List Char :=
  ((cs.dropWhile isJsWhitespace).reverse.dropWhile isJsWhitespace).reverse

/--
JavaScript `Number(string)` on the plain decimal forms: trims whitespace,
maps the empty string to `0`, handles an optional sign, and yields `NaN` on
anything that is not a decimal numeral (the modelled input space).
-/
def jsNumber (s : String) : JsNum :=
  match trimChars s.toList with
  | [] => .num 0
  | '+' :: rest => match parseDecimal rest with
    | some q => .num q
    | none => .nan
  | '-' :: rest => match parseDecimal rest with
    | some q => .num (-q)
    | none => .nan
  | cs => match parseDecimal cs with
    | some q => .num q
    | none => .nan

/-- `Number(x)` for a possibly-absent string (`Number(undefined) = NaN`). -/
def jsNumberOpt : Option String → JsNum
  | none => .nan
  | some s => jsNumber s

/-- JavaScript `Number.isInteger` (false on `NaN`). -/
def jsIsInteger : JsNum → Bool
  | .nan => false
  | .num q => q.den = 1

/-- JavaScript `x <= c` (false when `x` is `NaN`). -/
def jsNumLe : JsNum → ℚ → Bool
  | .nan, _ => false
  | .num q, c => q ≤ c

/-- JavaScript `x > c` (false when `x` is `NaN`). -/
def jsNumGt : JsNum → ℚ → Bool
  | .nan, _ => false
  | .num q, c => c < q

/--
The integer value of a JS number known to be integral (after validation the
handler's numbers always are).  On a non-integral rational this returns its
numerator; the handler never uses it there.
-/
def jsToInt : JsNum → ℤ
  | .nan => 0
  | .num q => q.num

/-- JavaScript truthiness of a query-parameter value: `undefined` and the
empty string are falsy, every other string is truthy. -/
def truthyOpt : Option String → Bool
  | none => false
  | some s => s ≠ ""

/-- The wall clock at handler-evaluation time: the values of
`now.getFullYear()` and `now.getMonth()` (0-indexed, `0..11`). -/
structure Clock where
  year : ℤ
  month0 : ℤ
deriving DecidableEq, Repr

/--
`new Date(y, m0, 1)` up to the fields that determine its ordering against
another first-of-month date: the constructor normalises month overflow, so
the date falls in calendar year `y + ⌊m0/12⌋`, month `m0 mod 12`.
-/
def jsDateMonthNorm (y m0 : ℤ) : ℤ × ℤ := (y + m0 / 12, m0 % 12)

/--
`d1 < d2` on two first-of-month `Date`s compares time values; for a fixed
timezone that is the lexicographic order on normalised (year, month).
-/
def jsDateLtMonth (a b : ℤ × ℤ) : Bool :=
  decide (a.1 < b.1 ∨ (a.1 = b.1 ∧ a.2 < b.2))

/--
`isPastMonth(year, month)` from `src/routes/report.routes.js` lines 27-37:
builds the first-of-month `Date` of the target and of the current month and
returns whether the target one is strictly earlier.
-/
def isPastMonth (year month : ℤ) (now : Clock) : Bool :=
  let currentMonthStart := jsDateMonthNorm now.year now.month0
  let targetMonthStart := jsDateMonthNorm year (month - 1)
  jsDateLtMonth targetMonthStart currentMonthStart

/-- The fixed, ordered category registry (`src/config/categories.js`). -/
def CATEGORIES : List String := ["food", "health", "housing", "sports", "education"]

/-- A stored cost document, with its `date` field broken into the calendar
components the handler reads off it (`getFullYear()`, `getMonth()` which is
0-indexed, `getDate()`). -/
structure CostRec where
  userid : ℤ
  description : String
  category : String
  sum : ℚ
  dateYear : ℤ
  dateMonth0 : ℤ
  dateDay : ℤ
deriving DecidableEq, Repr

/-- A stored user document (only the application-level `id` field matters to
the report handler's existence check). -/
structure UserRec where
  id : ℤ
deriving DecidableEq, Repr

/-- One `{sum, description, day}` record of a report's category list. -/
structure CostEntry where
  sum : ℚ
  description : String
  day : ℤ
deriving DecidableEq, Repr

/-- The `costs` payload: one `{category: [...entries]}` single-key object per
registered category, in registry order. -/
abbrev CostsPayload := List (String × List CostEntry)

/-- A persisted report document (`reports` collection).  `oid` models the
store-assigned `_id`, which is part of the document's JSON serialisation. -/
structure ReportDoc where
  oid : ℕ
  userid : ℤ
  year : ℤ
  month : ℤ
  costs : CostsPayload
deriving DecidableEq, Repr

/-- A report JSON body as returned to the client.  The freshly assembled
in-memory object has no `_id` (`oid = none`); a cached document serialises
with its `_id` (`oid = some n`). -/
structure ReportBody where
  oid : Option ℕ
  userid : ℤ
  year : ℤ
  month : ℤ
  costs : CostsPayload
deriving DecidableEq, Repr

/-- An HTTP response of the report endpoint. -/
inductive Resp where
  /-- `res.status(status).json({id, message})`. -/
  | err (status : ℕ) (id : ℕ) (message : String) : Resp
  /-- `res.status(200).json(body)`. -/
  | ok (body : ReportBody) : Resp
deriving DecidableEq, Repr

/-- A store query issued by the handler, in issue order. -/
inductive DbOp where
  | userExistsQ : DbOp
  | findReportQ : DbOp
  | findCostsQ : DbOp
  | createReportQ : DbOp
deriving DecidableEq, Repr

/-- The entity-store state: the three collections the handler touches, plus
the counter modelling store-assigned `_id`s. -/
structure DbState where
  users : List UserRec
  costs : List CostRec
  reports : List ReportDoc
  nextOid : ℕ
deriving DecidableEq, Repr

/-- A request's query string: ordered key/value pairs. -/
abbrev Query := List (String × String)

/-- Property access `req.query[k]`: the first value bound to key `k`. -/
def getParam (q : Query) (k : String) : Option String :=
  (q.find? (fun p => decide (p.1 = k))).map (·.2)

/-- `{sum: cost.sum, description: cost.description, day: date.getDate()}`. -/
def mkEntry (c : CostRec) : CostEntry :=
  { sum := c.sum, description := c.description, day := c.dateDay }

/-- The in-month test of the grouping loop:
`date.getFullYear() === numericYear && (date.getMonth() + 1) === numericMonth`. -/
def costInMonth (c : CostRec) (year month : ℤ) : Bool :=
  decide (c.dateYear = year ∧ c.dateMonth0 + 1 = month)

/-- `Object.fromEntries(CATEGORIES.map(cat => [cat, []]))`: one empty list
per registered category, in registry order. -/
def initGrouped : CostsPayload := CATEGORIES.map (fun cat => (cat, []))

/-- `groupedCats[cat]?.push(entry)` restricted to accesses that never hit an
inherited `Object.prototype` member: append to the list bound to an own key
`cat`, no-op otherwise (the access is `undefined` and the optional chain
short-circuits).  Exact on schema-validated stores, where every cost
category is an own key of the table; `pushToJs` below models the access
with prototype inheritance, where a colliding unregistered name throws. -/
def pushTo (g : CostsPayload) (cat : String) (e : CostEntry) : CostsPayload :=
  g.map (fun p => if p.1 = cat then (p.1, p.2 ++ [e]) else p)

/-- The grouping loop over the retrieved costs (report handler lines
128-151): filter to the target month and push each hit onto its category. -/
def buildGrouped (costs : List CostRec) (year month : ℤ) : CostsPayload :=
  costs.foldl
    (fun g c =>
      if costInMonth c year month then pushTo g c.category (mkEntry c) else g)
    initGrouped

/-- `groupedCats[cat]` read during report assembly: the list bound to the
first occurrence of key `cat` (empty when absent, which never happens for
registry categories). -/
def lookupCat (g : CostsPayload) (cat : String) : List CostEntry :=
  ((g.find? (fun p => decide (p.1 = cat))).map (·.2)).getD []

/-- The assembled `costs` field:
`CATEGORIES.map(cat => ({[cat]: groupedCats[cat]}))`. -/
def assembleCosts (g : CostsPayload) : CostsPayload :=
  CATEGORIES.map (fun cat => (cat, lookupCat g cat))

/-- The cache key predicate of `Report.findOne({userid, year, month})` (and
of the countings over the `reports` collection). -/
def reportKeyMatch (u y m : ℤ) (r : ReportDoc) : Bool :=
  decide (r.userid = u ∧ r.year = y ∧ r.month = m)

/-- `Report.findOne({userid, year, month})`: first stored report matching
the key, in insertion order. -/
def findReport (db : DbState) (u y m : ℤ) : Option ReportDoc :=
  db.reports.find? (reportKeyMatch u y m)

/-- Number of cached report documents stored under a given key. -/
def countReports (db : DbState) (u y m : ℤ) : ℕ :=
  (db.reports.filter (reportKeyMatch u y m)).length

/-- `User.exists({id: numericUserId})`. -/
def userExistsQ (db : DbState) (u : ℤ) : Bool :=
  db.users.any (fun usr => decide (usr.id = u))

/-- `Cost.find({userid: numericUserId})`: the user's costs in stored order. -/
def findCosts (db : DbState) (u : ℤ) : List CostRec :=
  db.costs.filter (fun c => decide (c.userid = u))

/-- The JSON body of a cached mongoose document: its schema fields plus the
store-assigned `_id`. -/
def bodyOfDoc (d : ReportDoc) : ReportBody :=
  { oid := some d.oid, userid := d.userid, year := d.year, month := d.month,
    costs := d.costs }

/--
The post-validation body of the report handler (lines 92-170): user
existence check, past-month classification, cache lookup, cost fetch and
grouping, report assembly, conditional cache write, response.  `createOk`
says whether the store accepts the `Report.create` insert; when it does
not, the insert throws, nothing is persisted, and the outer catch turns the
request into a 500.  The returned trace lists the store queries issued.
-/
def resolveReport (u y m : ℤ) (now : Clock) (createOk : Bool) (db : DbState) :
    Resp × DbState × List DbOp :=
  if !userExistsQ db u then
    (.err 400 400 ("User " ++ toString u ++ " does not exist."), db,
      [.userExistsQ])
  else
    let pastMonth := isPastMonth y m now
    let cached := if pastMonth then findReport db u y m else none
    match cached with
    | some doc =>
        (.ok (bodyOfDoc doc), db, [.userExistsQ, .findReportQ])
    | none =>
        let preOps := if pastMonth then [DbOp.userExistsQ, DbOp.findReportQ]
          else [DbOp.userExistsQ]
        let userCosts := findCosts db u
        let grouped := buildGrouped userCosts y m
        let freshBody : ReportBody :=
          { oid := none, userid := u, year := y, month := m,
            costs := assembleCosts grouped }
        if pastMonth then
          if createOk then
            (.ok freshBody,
              { db with
                  reports := db.reports ++
                    [{ oid := db.nextOid, userid := u, year := y, month := m,
                       costs := assembleCosts grouped }],
                  nextOid := db.nextOid + 1 },
              preOps ++ [.findCostsQ, .createReportQ])
          else
            (.err 500 500 "Internal server error.", db,
              preOps ++ [.findCostsQ, .createReportQ])
        else
          (.ok freshBody, db, preOps ++ [.findCostsQ])

/--
`GET /report` (report handler lines 46-178): parameter extraction and the
three-stage validation, then `resolveReport`.  Modelled inputs: the query
string, the wall clock, whether the store accepts the cache insert, and the
store state.
-/
def reportHandler (q : Query) (now : Clock) (createOk : Bool) (db : DbState) :
    Resp × DbState × List DbOp :=
  let userid := getParam q "userid"
  let idp := getParam q "id"
  let yearp := getParam q "year"
  let monthp := getParam q "month"
  let userIdValue := userid.orElse (fun _ => idp)
  if !truthyOpt userIdValue || !truthyOpt yearp || !truthyOpt monthp then
    (.err 400 400 "Missing required fields.", db, [])
  else
    let numericUserId := jsNumberOpt userIdValue
    let numericYear := jsNumberOpt yearp
    let numericMonth := jsNumberOpt monthp
    if !jsIsInteger numericUserId || jsNumLe numericUserId 0 ||
        !jsIsInteger numericYear || jsNumLe numericYear 0 ||
        !jsIsInteger numericMonth || jsNumLe numericMonth 0 then
      (.err 400 400 "User ID, year and month must be positive integers.",
        db, [])
    else if jsNumGt numericMonth 12 then
      (.err 400 400 "Month number must be between 1 and 12.", db, [])
    else
      resolveReport (jsToInt numericUserId) (jsToInt numericYear)
        (jsToInt numericMonth) now createOk db

/-- The handler's validated parameters: `some (u, y, m)` exactly when the
three-stage validation passes, mirroring the handler's own checks. -/
def parsedParams (q : Query) : Option (ℤ × ℤ × ℤ) :=
  let userIdValue := (getParam q "userid").orElse (fun _ => getParam q "id")
  let yearp := getParam q "year"
  let monthp := getParam q "month"
  if !truthyOpt userIdValue || !truthyOpt yearp || !truthyOpt monthp then
    none
  else
    let numericUserId := jsNumberOpt userIdValue
    let numericYear := jsNumberOpt yearp
    let numericMonth := jsNumberOpt monthp
    if !jsIsInteger numericUserId || jsNumLe numericUserId 0 ||
        !jsIsInteger numericYear || jsNumLe numericYear 0 ||
        !jsIsInteger numericMonth || jsNumLe numericMonth 0 then
      none
    else if jsNumGt numericMonth 12 then
      none
    else
      some (jsToInt numericUserId, jsToInt numericYear, jsToInt numericMonth)

/-!
Specification-side definitions, written from the spec's words, to be
compared with the handler embedding above.
-/

/--
Spec side (§4.1, glossary): the months-since-year-zero index of the
first-of-month instant of (year, month) with `month` 1-indexed.  For a
fixed timezone, actual first-of-month time values are strictly increasing
in this index, so comparing indices compares instants.
-/
def firstOfMonthIdx (year month : ℤ) : ℤ := 12 * year + (month - 1)

/-- Spec side (§4.4): the validation outcome taxonomy. -/
inductive ValidationOutcome where
  | missingParameter : ValidationOutcome
  | notPositiveInteger : ValidationOutcome
  | monthOutOfRange : ValidationOutcome
  | success (userId year month : ℤ) : ValidationOutcome
deriving DecidableEq, Repr

/-- Spec side (§4.4): a raw parameter that is absent or empty. -/
def absentOrEmpty : Option String → Bool
  | none => true
  | some s => decide (s = "")

/-- Spec side (§4.4): the positive whole number encoded by a raw parameter,
`none` when its numeric interpretation is not a positive integer. -/
def asPositiveInt (o : Option String) : Option ℤ :=
  match jsNumberOpt o with
  | .nan => none
  | .num v => if v.den = 1 ∧ 0 < v.num then some v.num else none

/--
Spec side (§4.4): presence before numeric shape before range; missing wins,
then not-positive-integer (zero, negative and fractional values all fall in
this class), then the month range check, else success with three integers.
-/
def specValidate (rawUser rawYear rawMonth : Option String) :
    ValidationOutcome :=
  if absentOrEmpty rawUser || absentOrEmpty rawYear || absentOrEmpty rawMonth
  then .missingParameter
  else
    match asPositiveInt rawUser, asPositiveInt rawYear, asPositiveInt rawMonth
    with
    | some u, some y, some m =>
        if 12 < m then .monthOutOfRange else .success u y m
    | _, _, _ => .notPositiveInteger

/-- The handler's resolution of the user parameter: `userid ?? id`. -/
def rawUserParam (q : Query) : Option String :=
  (getParam q "userid").orElse (fun _ => getParam q "id")

/-- Spec side (§4.3): the category list of `cat` is the order-preserving
image of the user's costs dated in the requested month with that category. -/
def specCategoryList (db : DbState) (u y m : ℤ) (cat : String) :
    List CostEntry :=
  ((db.costs.filter (fun c =>
      decide (c.userid = u) && costInMonth c y m && decide (c.category = cat))).map
    mkEntry)

/-- The handler's freshly computed `costs` payload for a request. -/
def computedCosts (db : DbState) (u y m : ℤ) : CostsPayload :=
  assembleCosts (buildGrouped (findCosts db u) y m)

/-!
Exact model of the grouping line including prototype inheritance.

`groupedCats` is built by `Object.fromEntries`, so it is a plain object
inheriting from `Object.prototype`.  The access `groupedCats[cost.category]`
therefore yields the own array for a registry key, but for a key that
collides with an inherited `Object.prototype` member (for example
`constructor` or `toString`) it yields that inherited, non-nullish value:
the optional chain proceeds, `.push` is `undefined`, and the call throws a
TypeError caught by the handler's catch block (a 500).  Only a key that is
neither an own key nor a prototype member evaluates to `undefined` and is
silently skipped.  `pushTo` above is the restriction of this behaviour to
accesses that never hit a prototype member (exact on schema-validated
stores, where every category is an own key); the `…Js` definitions below
keep the error path.
-/

/-- Own property names of `Object.prototype`: a plain object created by
`Object.fromEntries` inherits all of them, so accessing any of these keys
yields a non-nullish value even though the object has no such own key. -/
def objectProtoKeys : List String :=
  ["constructor", "hasOwnProperty", "isPrototypeOf", "propertyIsEnumerable",
   "toLocaleString", "toString", "valueOf", "__defineGetter__",
   "__defineSetter__", "__lookupGetter__", "__lookupSetter__", "__proto__"]

/-- `groupedCats[cat]?.push(e)` with prototype inheritance: append on an own
key; throw (`none`) when `cat` is an inherited `Object.prototype` member
(its value has no `push`); silently skip otherwise (`undefined`, so the
optional chain short-circuits). -/
def pushToJs (g : CostsPayload) (cat : String) (e : CostEntry) :
    Option CostsPayload :=
  match g.find? (fun p => decide (p.1 = cat)) with
  | some _ => some (pushTo g cat e)
  | none => if cat ∈ objectProtoKeys then none else some g

/-- The grouping loop with the error path: the first in-month cost whose
category access throws aborts the whole loop. -/
def buildGroupedJsGo (g : CostsPayload) (L : List CostRec) (y m : ℤ) :
    Option CostsPayload :=
  match L with
  | [] => some g
  | c :: L' =>
    if costInMonth c y m then
      match pushToJs g c.category (mkEntry c) with
      | none => none
      | some g' => buildGroupedJsGo g' L' y m
    else buildGroupedJsGo g L' y m

/-- The grouping loop of the handler (lines 128-151) with the
prototype-inheritance error path kept. -/
def buildGroupedJs (costs : List CostRec) (y m : ℤ) : Option CostsPayload :=
  buildGroupedJsGo initGrouped costs y m

/-- `resolveReport` with the grouping loop's error path kept: a TypeError
thrown inside the loop propagates to the catch block, which answers 500
with nothing persisted; the cost fetch was already issued, the cache write
never is.  Identical to `resolveReport` wherever the loop does not throw. -/
def resolveReportJs (u y m : ℤ) (now : Clock) (createOk : Bool)
    (db : DbState) : Resp × DbState × List DbOp :=
  if !userExistsQ db u then
    (.err 400 400 ("User " ++ toString u ++ " does not exist."), db,
      [.userExistsQ])
  else
    let pastMonth := isPastMonth y m now
    let cached := if pastMonth then findReport db u y m else none
    match cached with
    | some doc =>
        (.ok (bodyOfDoc doc), db, [.userExistsQ, .findReportQ])
    | none =>
        let preOps := if pastMonth then [DbOp.userExistsQ, DbOp.findReportQ]
          else [DbOp.userExistsQ]
        let userCosts := findCosts db u
        match buildGroupedJs userCosts y m with
        | none =>
            (.err 500 500 "Internal server error.", db,
              preOps ++ [.findCostsQ])
        | some grouped =>
            let freshBody : ReportBody :=
              { oid := none, userid := u, year := y, month := m,
                costs := assembleCosts grouped }
            if pastMonth then
              if createOk then
                (.ok freshBody,
                  { db with
                      reports := db.reports ++
                        [{ oid := db.nextOid, userid := u, year := y,
                           month := m, costs := assembleCosts grouped }],
                      nextOid := db.nextOid + 1 },
                  preOps ++ [.findCostsQ, .createReportQ])
              else
                (.err 500 500 "Internal server error.", db,
                  preOps ++ [.findCostsQ, .createReportQ])
            else
              (.ok freshBody, db, preOps ++ [.findCostsQ])

/-- `GET /report` with the grouping loop's error path kept: the same
validation stage as `reportHandler`, then `resolveReportJs`. -/
def reportHandlerJs (q : Query) (now : Clock) (createOk : Bool)
    (db : DbState) : Resp × DbState × List DbOp :=
  let userid := getParam q "userid"
  let idp := getParam q "id"
  let yearp := getParam q "year"
  let monthp := getParam q "month"
  let userIdValue := userid.orElse (fun _ => idp)
  if !truthyOpt userIdValue || !truthyOpt yearp || !truthyOpt monthp then
    (.err 400 400 "Missing required fields.", db, [])
  else
    let numericUserId := jsNumberOpt userIdValue
    let numericYear := jsNumberOpt yearp
    let numericMonth := jsNumberOpt monthp
    if !jsIsInteger numericUserId || jsNumLe numericUserId 0 ||
        !jsIsInteger numericYear || jsNumLe numericYear 0 ||
        !jsIsInteger numericMonth || jsNumLe numericMonth 0 then
      (.err 400 400 "User ID, year and month must be positive integers.",
        db, [])
    else if jsNumGt numericMonth 12 then
      (.err 400 400 "Month number must be between 1 and 12.", db, [])
    else
      resolveReportJs (jsToInt numericUserId) (jsToInt numericYear)
        (jsToInt numericMonth) now createOk db

/-- C3 -- `isPastMonth(year, month)` returns true iff the first-of-month
instant of the target (year, month) is strictly earlier than the
first-of-month instant of the current date, and in particular the current
month and every future month yield false; as a function of the explicit
clock it has no side effects. -/
theorem isPastMonth_firstOfMonth_spec (y m : ℤ) (now : Clock) :
    (isPastMonth y m now = true ↔
      firstOfMonthIdx y m < firstOfMonthIdx now.year (now.month0 + 1)) ∧
    (firstOfMonthIdx now.year (now.month0 + 1) ≤ firstOfMonthIdx y m →
      isPastMonth y m now = false) := by
  constructor
  · simp only [isPastMonth, jsDateMonthNorm, jsDateLtMonth, firstOfMonthIdx,
      decide_eq_true_eq]
    omega
  · intro h
    simp only [isPastMonth, jsDateMonthNorm, jsDateLtMonth, firstOfMonthIdx,
      decide_eq_false_iff_not] at *
    omega

/-- Witness for C3: January 2024 is a past month relative to October 2026,
and December 2026 (a future month, index not below the current one) is not. -/
theorem isPastMonth_firstOfMonth_spec_witness :
    isPastMonth 2024 1 ⟨2026, 9⟩ = true ∧ isPastMonth 2026 12 ⟨2026, 9⟩ = false := by
  refine ⟨?_, ?_⟩
  · exact (isPastMonth_firstOfMonth_spec 2024 1 ⟨2026, 9⟩).1.mpr (by decide)
  · exact (isPastMonth_firstOfMonth_spec 2026 12 ⟨2026, 9⟩).2 (by decide)

/-- The falsiness check of the handler is exactly the spec's absent-or-empty
test on each raw parameter. -/
theorem truthyOpt_not (o : Option String) : (!truthyOpt o) = absentOrEmpty o := by
  cases o with
  | none => simp [truthyOpt, absentOrEmpty]
  | some s => simp [truthyOpt, absentOrEmpty]

/-- The spec's positive-whole-number reading of a raw parameter agrees with
the handler's `Number.isInteger` / `<= 0` checks and numeric value. -/
theorem asPositiveInt_eq (o : Option String) :
    asPositiveInt o =
      if jsIsInteger (jsNumberOpt o) && !jsNumLe (jsNumberOpt o) 0
      then some (jsToInt (jsNumberOpt o)) else none := by
  cases h : jsNumberOpt o with
  | nan => simp [asPositiveInt, h, jsIsInteger]
  | num v =>
    simp only [asPositiveInt, h, jsIsInteger, jsNumLe, jsToInt]
    by_cases hd : v.den = 1
    · by_cases hp : 0 < v
      · have h1 : 0 < v.num := Rat.num_pos.mpr hp
        have h2 : ¬ (v ≤ 0) := not_le.mpr hp
        simp [hd, h1, h2]
      · have h1 : ¬ 0 < v.num := by simpa [Rat.num_pos] using hp
        have h2 : v ≤ 0 := not_lt.mp hp
        simp [hd, h1, h2]
    · simp [hd]

/-- On an integral JS number, the handler's `> 12` test is the integer
comparison of the spec. -/
theorem jsNumGt_twelve (v : ℚ) (hd : v.den = 1) :
    jsNumGt (.num v) 12 = decide (12 < v.num) := by
  have hv : ((v.num : ℚ)) = v := (Rat.den_eq_one_iff v).mp hd
  have hiff : ((12:ℚ) < v) ↔ ((12:ℤ) < v.num) := by
    rw [← hv]; exact_mod_cast Iff.rfl
  simp [jsNumGt, hiff]

/-- The handler's entire validation stage, characterised by the spec-side
`specValidate`: presence, then numeric shape, then range, each producing
its fixed 400 message, and success handing three integers onward. -/
theorem reportHandler_validation_cases (q : Query) (now : Clock) (ok : Bool)
    (db : DbState) :
    reportHandler q now ok db =
      match specValidate (rawUserParam q) (getParam q "year")
          (getParam q "month") with
      | .missingParameter => (.err 400 400 "Missing required fields.", db, [])
      | .notPositiveInteger =>
          (.err 400 400 "User ID, year and month must be positive integers.",
            db, [])
      | .monthOutOfRange =>
          (.err 400 400 "Month number must be between 1 and 12.", db, [])
      | .success u y m => resolveReport u y m now ok db := by
  simp only [reportHandler, specValidate, rawUserParam, asPositiveInt_eq]
  simp only [truthyOpt_not]
  cases hA : absentOrEmpty ((getParam q "userid").orElse fun _ => getParam q "id") <;>
  cases hB : absentOrEmpty (getParam q "year") <;>
  cases hC : absentOrEmpty (getParam q "month") <;>
    simp only [Bool.false_or, Bool.or_false, Bool.or_true, Bool.true_or,
      Bool.or_self, if_true, if_false, Bool.true_and, Bool.false_and,
      Bool.and_true, Bool.and_false, Bool.false_eq_true, ite_false, ite_true]
  case false.false.false =>
    cases h1 : jsIsInteger (jsNumberOpt ((getParam q "userid").orElse fun _ => getParam q "id")) <;>
    cases h2 : jsNumLe (jsNumberOpt ((getParam q "userid").orElse fun _ => getParam q "id")) 0 <;>
    cases h3 : jsIsInteger (jsNumberOpt (getParam q "year")) <;>
    cases h4 : jsNumLe (jsNumberOpt (getParam q "year")) 0 <;>
    cases h5 : jsIsInteger (jsNumberOpt (getParam q "month")) <;>
    cases h6 : jsNumLe (jsNumberOpt (getParam q "month")) 0 <;>
      simp only [Bool.not_true, Bool.not_false, Bool.false_or, Bool.or_false,
        Bool.or_true, Bool.true_or, Bool.true_and, Bool.false_and,
        Bool.and_true, Bool.and_false, if_true, if_false, Bool.false_eq_true,
        ite_false, ite_true]
    case true.false.true.false.true.false =>
      cases hm : jsNumberOpt (getParam q "month") with
      | nan => rw [hm] at h5; simp [jsIsInteger] at h5
      | num v =>
        have hd : v.den = 1 := by rw [hm] at h5; simpa [jsIsInteger] using h5
        rw [jsNumGt_twelve v hd]
        simp only [jsToInt]
        cases hlt : decide (12 < v.num) with
        | false =>
            have : ¬ (12 < v.num) := of_decide_eq_false hlt
            simp [this]
        | true =>
            have : (12 < v.num) := of_decide_eq_true hlt
            simp [this]

/-- A request whose parameters validate to `(u, y, m)` behaves as the
post-validation handler body on those integers. -/
theorem reportHandler_of_parsed (q : Query) (now : Clock) (ok : Bool)
    (db : DbState) (u y m : ℤ) (h : parsedParams q = some (u, y, m)) :
    reportHandler q now ok db = resolveReport u y m now ok db := by
  simp only [parsedParams] at h
  simp at h
  obtain ⟨⟨⟨t1, t2⟩, t3⟩, ⟨⟨⟨⟨⟨i1, l1⟩, i2⟩, l2⟩, i3⟩, l3⟩, g12, e1, e2, e3⟩ := h
  simp only [reportHandler, t1, t2, t3, i1, l1, i2, l2, i3, l3, g12,
    Bool.not_true, Bool.false_or, Bool.or_false, Bool.or_self,
    Bool.false_eq_true, if_false, ite_false, if_true, ite_true]
  rw [e1, e2, e3]

/-- Cache-hit branch: past month with a stored report for the key returns
the cached document, leaves the store unchanged, and issues only the
existence check and the cache lookup. -/
theorem resolveReport_cacheHit (u y m : ℤ) (now : Clock) (ok : Bool)
    (db : DbState) (d : ReportDoc) (hu : userExistsQ db u = true)
    (hp : isPastMonth y m now = true) (hf : findReport db u y m = some d) :
    resolveReport u y m now ok db =
      (.ok (bodyOfDoc d), db, [.userExistsQ, .findReportQ]) := by
  simp [resolveReport, hu, hp, hf]

/-- Non-past branch: the report is computed fresh and nothing is persisted. -/
theorem resolveReport_nonPast (u y m : ℤ) (now : Clock) (ok : Bool)
    (db : DbState) (hu : userExistsQ db u = true)
    (hp : isPastMonth y m now = false) :
    resolveReport u y m now ok db =
      (.ok { oid := none, userid := u, year := y, month := m,
             costs := computedCosts db u y m }, db,
        [.userExistsQ, .findCostsQ]) := by
  simp [resolveReport, hu, hp, computedCosts]

/-- Past-month cache miss with a working store: the computed report is
returned and persisted once, with a fresh `_id`. -/
theorem resolveReport_pastMissCreate (u y m : ℤ) (now : Clock)
    (db : DbState) (hu : userExistsQ db u = true)
    (hp : isPastMonth y m now = true) (hf : findReport db u y m = none) :
    resolveReport u y m now true db =
      (.ok { oid := none, userid := u, year := y, month := m,
             costs := computedCosts db u y m },
        { db with
            reports := db.reports ++
              [{ oid := db.nextOid, userid := u, year := y, month := m,
                 costs := computedCosts db u y m }],
            nextOid := db.nextOid + 1 },
        [.userExistsQ, .findReportQ, .findCostsQ, .createReportQ]) := by
  simp [resolveReport, hu, hp, hf, computedCosts]

/-- Past-month cache miss with a failing cache write: the insert throws,
nothing is persisted, and the catch block answers 500. -/
theorem resolveReport_pastMissFail (u y m : ℤ) (now : Clock)
    (db : DbState) (hu : userExistsQ db u = true)
    (hp : isPastMonth y m now = true) (hf : findReport db u y m = none) :
    resolveReport u y m now false db =
      (.err 500 500 "Internal server error.", db,
        [.userExistsQ, .findReportQ, .findCostsQ, .createReportQ]) := by
  simp [resolveReport, hu, hp, hf]

/-- Pushing onto a keyed table of lists appends to exactly the pushed key. -/
theorem pushTo_map (l : List String) (s : String → List CostEntry)
    (cat : String) (e : CostEntry) :
    pushTo (l.map fun c => (c, s c)) cat e =
      l.map fun c => (c, if c = cat then s c ++ [e] else s c) := by
  simp only [pushTo, List.map_map]
  apply List.map_congr_left
  intro a _
  by_cases h : a = cat <;> simp [h]

/-- The grouping fold, over any starting table keyed by the registry:
each category ends with its start value extended by the in-month costs of
that category, in retrieval order. -/
theorem buildGrouped_go (L : List CostRec) (y m : ℤ)
    (s : String → List CostEntry) :
    L.foldl
        (fun g c =>
          if costInMonth c y m then pushTo g c.category (mkEntry c) else g)
        (CATEGORIES.map fun cat => (cat, s cat)) =
      CATEGORIES.map fun cat =>
        (cat, s cat ++
          (L.filter fun c =>
            costInMonth c y m && decide (c.category = cat)).map mkEntry) := by
  induction L generalizing s with
  | nil => simp
  | cons c L ih =>
    simp only [List.foldl_cons]
    by_cases hc : costInMonth c y m
    · rw [if_pos hc, pushTo_map,
        ih (fun cat => if cat = c.category then s cat ++ [mkEntry c] else s cat)]
      apply List.map_congr_left
      intro cat _
      simp only [List.filter_cons, hc, Bool.true_and]
      by_cases hcat : c.category = cat
      · simp [hcat, List.append_assoc]
      · have : cat ≠ c.category := fun h => hcat h.symm
        simp [hcat, this]
    · rw [if_neg hc, ih s]
      apply List.map_congr_left
      intro cat _
      simp [List.filter_cons, hc]

/-- The grouping loop produces, per registry category in order, the
order-preserving entry list of that category's in-month costs. -/
theorem buildGrouped_eq (L : List CostRec) (y m : ℤ) :
    buildGrouped L y m =
      CATEGORIES.map fun cat =>
        (cat, (L.filter fun c =>
          costInMonth c y m && decide (c.category = cat)).map mkEntry) := by
  have h := buildGrouped_go L y m (fun _ => [])
  simpa [buildGrouped, initGrouped] using h

/-- Reading a key from a table whose entries are keyed by themselves
returns that key's value. -/
theorem lookupCat_map (l : List String) (f : String → List CostEntry)
    (cat : String) (h : cat ∈ l) :
    lookupCat (l.map fun c => (c, f c)) cat = f cat := by
  induction l with
  | nil => cases h
  | cons a l ih =>
    by_cases ha : a = cat
    · subst ha
      simp [lookupCat, List.find?]
    · have h' : cat ∈ l := by
        rcases List.mem_cons.mp h with rfl | h' <;> [exact absurd rfl ha; exact h']
      have := ih h'
      simpa [lookupCat, List.find?, ha] using this

/-- Re-assembling a registry-keyed table is the identity. -/
theorem assembleCosts_map (f : String → List CostEntry) :
    assembleCosts (CATEGORIES.map fun cat => (cat, f cat)) =
      CATEGORIES.map fun cat => (cat, f cat) := by
  unfold assembleCosts
  apply List.map_congr_left
  intro cat hcat
  rw [lookupCat_map _ _ _ hcat]

/-- The handler's computed `costs` payload equals the spec's declarative
per-category breakdown. -/
theorem computedCosts_eq (db : DbState) (u y m : ℤ) :
    computedCosts db u y m =
      CATEGORIES.map fun cat => (cat, specCategoryList db u y m cat) := by
  unfold computedCosts findCosts specCategoryList
  rw [buildGrouped_eq, assembleCosts_map]
  apply List.map_congr_left
  intro cat _
  congr 1
  rw [List.filter_filter]
  congr 1
  apply List.filter_congr
  intro c _
  cases h1 : decide (c.userid = u) <;> cases h2 : costInMonth c y m <;>
    cases h3 : decide (c.category = cat) <;> rfl

/-- A successful cache lookup means at least one stored report has the key. -/
theorem countReports_pos_of_find (db : DbState) (u y m : ℤ) (d : ReportDoc)
    (hf : findReport db u y m = some d) : 1 ≤ countReports db u y m := by
  unfold findReport at hf
  have hmem : d ∈ db.reports := List.mem_of_find?_eq_some hf
  have hkey : reportKeyMatch u y m d = true := List.find?_some hf
  have : d ∈ db.reports.filter (reportKeyMatch u y m) :=
    List.mem_filter.mpr ⟨hmem, hkey⟩
  unfold countReports
  exact List.length_pos.mpr (List.ne_nil_of_mem this)

/-- A failed cache lookup means no stored report has the key. -/
theorem countReports_zero_of_find_none (db : DbState) (u y m : ℤ)
    (hf : findReport db u y m = none) : countReports db u y m = 0 := by
  unfold findReport at hf
  unfold countReports
  rw [List.filter_eq_nil_iff.mpr (List.find?_eq_none.mp hf)]
  rfl

/-- Missing-user branch: a 400 with the interpolated identifier, store
untouched, only the existence check issued. -/
theorem resolveReport_noUser (u y m : ℤ) (now : Clock) (ok : Bool)
    (db : DbState) (hu : userExistsQ db u = false) :
    resolveReport u y m now ok db =
      (.err 400 400 ("User " ++ toString u ++ " does not exist."), db,
        [.userExistsQ]) := by
  simp [resolveReport, hu]

/-- C4 -- on a validated past-month request whose key has a cache entry,
the handler returns that entry unmodified and short-circuits: no cost query
is issued and no cache write occurs. -/
theorem report_cacheHit_shortCircuit (q : Query) (now : Clock) (ok : Bool)
    (db : DbState) (u y m : ℤ) (d : ReportDoc)
    (hq : parsedParams q = some (u, y, m)) (hu : userExistsQ db u = true)
    (hp : isPastMonth y m now = true) (hf : findReport db u y m = some d) :
    reportHandler q now ok db =
      (.ok (bodyOfDoc d), db, [.userExistsQ, .findReportQ]) ∧
    DbOp.findCostsQ ∉ (reportHandler q now ok db).2.2 ∧
    DbOp.createReportQ ∉ (reportHandler q now ok db).2.2 := by
  rw [reportHandler_of_parsed q now ok db u y m hq,
    resolveReport_cacheHit u y m now ok db d hu hp hf]
  refine ⟨rfl, ?_, ?_⟩ <;> simp

/-- C8 -- if the cache write of a freshly computed past-month report fails,
the request surfaces a 500 "Internal server error." instead of returning
the computed report; the failure is not swallowed. -/
theorem report_cacheWriteFail_500 (q : Query) (now : Clock) (db : DbState)
    (u y m : ℤ) (hq : parsedParams q = some (u, y, m))
    (hu : userExistsQ db u = true) (hp : isPastMonth y m now = true)
    (hf : findReport db u y m = none) :
    reportHandler q now false db =
      (.err 500 500 "Internal server error.", db,
        [.userExistsQ, .findReportQ, .findCostsQ, .createReportQ]) := by
  rw [reportHandler_of_parsed q now false db u y m hq,
    resolveReport_pastMissFail u y m now db hu hp hf]

/-- C2 -- a request for a non-past month (per `isPastMonth` at evaluation
time) never persists a Report document, no matter how often it is
repeated, and the cache write is never even issued on such requests. -/
theorem report_nonPast_noPersist (q : Query) (now : Clock) (ok : Bool)
    (db : DbState) (u y m : ℤ) (hq : parsedParams q = some (u, y, m))
    (hp : isPastMonth y m now = false) :
    (∀ n : ℕ,
      ((fun d => (reportHandler q now ok d).2.1)^[n] db).reports = db.reports) ∧
    (∀ d : DbState, DbOp.createReportQ ∉ (reportHandler q now ok d).2.2) := by
  have step : ∀ d : DbState,
      (reportHandler q now ok d).2.1 = d ∧
      DbOp.createReportQ ∉ (reportHandler q now ok d).2.2 := by
    intro d
    rw [reportHandler_of_parsed q now ok d u y m hq]
    cases hud : userExistsQ d u with
    | false =>
        rw [resolveReport_noUser u y m now ok d hud]
        exact ⟨rfl, by simp⟩
    | true =>
        rw [resolveReport_nonPast u y m now ok d hud hp]
        exact ⟨rfl, by simp⟩
  have hid : (fun d => (reportHandler q now ok d).2.1) = id := by
    funext d
    exact (step d).1
  constructor
  · intro n
    rw [hid]
    simp
  · intro d
    exact (step d).2

/-- C1 -- for a past (userid, year, month) of an existing user, issuing the
request twice in sequence yields the same `costs` content both times, and
(starting from a store satisfying the at-most-one-cache-entry invariant of
the data model) exactly one cached Report document exists for the key after
both calls: the second request hits the cache and inserts nothing. -/
theorem report_idempotent_caching (q : Query) (now : Clock) (db : DbState)
    (u y m : ℤ) (hq : parsedParams q = some (u, y, m))
    (hu : userExistsQ db u = true) (hp : isPastMonth y m now = true)
    (hinv : countReports db u y m ≤ 1) :
    ∃ b1 b2 : ReportBody,
      (reportHandler q now true db).1 = .ok b1 ∧
      (reportHandler q now true (reportHandler q now true db).2.1).1 = .ok b2 ∧
      b1.costs = b2.costs ∧
      countReports (reportHandler q now true (reportHandler q now true db).2.1).2.1
        u y m = 1 := by
  rw [reportHandler_of_parsed q now true db u y m hq]
  cases hf : findReport db u y m with
  | some d =>
    rw [resolveReport_cacheHit u y m now true db d hu hp hf]
    dsimp only
    rw [reportHandler_of_parsed q now true db u y m hq]
    rw [resolveReport_cacheHit u y m now true db d hu hp hf]
    refine ⟨bodyOfDoc d, bodyOfDoc d, rfl, rfl, rfl, ?_⟩
    have h1 : 1 ≤ countReports db u y m := countReports_pos_of_find db u y m d hf
    exact le_antisymm hinv h1
  | none =>
    rw [resolveReport_pastMissCreate u y m now db hu hp hf]
    dsimp only
    have hnew : reportKeyMatch u y m
        { oid := db.nextOid, userid := u, year := y, month := m,
          costs := computedCosts db u y m } = true := by
      simp [reportKeyMatch]
    have hf' : findReport
        { db with
            reports := db.reports ++
              [{ oid := db.nextOid, userid := u, year := y, month := m,
                 costs := computedCosts db u y m }],
            nextOid := db.nextOid + 1 } u y m =
        some { oid := db.nextOid, userid := u, year := y, month := m,
               costs := computedCosts db u y m } := by
      unfold findReport at hf ⊢
      simp only [List.find?_append, hf, Option.none_or, List.find?]
      rw [hnew]
    have hu' : userExistsQ
        { db with
            reports := db.reports ++
              [{ oid := db.nextOid, userid := u, year := y, month := m,
                 costs := computedCosts db u y m }],
            nextOid := db.nextOid + 1 } u = true := hu
    rw [reportHandler_of_parsed q now true
        { db with
            reports := db.reports ++
              [{ oid := db.nextOid, userid := u, year := y, month := m,
                 costs := computedCosts db u y m }],
            nextOid := db.nextOid + 1 } u y m hq]
    rw [resolveReport_cacheHit u y m now true _ _ hu' hp hf']
    refine ⟨_, _, rfl, rfl, rfl, ?_⟩
    have h0 : countReports db u y m = 0 :=
      countReports_zero_of_find_none db u y m hf
    unfold countReports at h0 ⊢
    simp only [List.filter_append, List.length_append, h0, List.filter,
      hnew, List.length_cons, List.length_nil]

/-- C10 -- every report request leaves the users and costs collections
unchanged; the reports collection either stays unchanged or receives a
single appended document (and only when the cache write was issued); the
cache write is issued at most once; every error response leaves the store
untouched; and every cache-served response (a body carrying a store `_id`)
performs no write at all. -/
theorem report_frame_effects (q : Query) (now : Clock) (ok : Bool)
    (db : DbState) :
    (reportHandler q now ok db).2.1.users = db.users ∧
    (reportHandler q now ok db).2.1.costs = db.costs ∧
    ((reportHandler q now ok db).2.1.reports = db.reports ∨
      ∃ d : ReportDoc,
        (reportHandler q now ok db).2.1.reports = db.reports ++ [d] ∧
        DbOp.createReportQ ∈ (reportHandler q now ok db).2.2) ∧
    (reportHandler q now ok db).2.2.count DbOp.createReportQ ≤ 1 ∧
    (∀ s i msg, (reportHandler q now ok db).1 = .err s i msg →
      (reportHandler q now ok db).2.1 = db) ∧
    (∀ b : ReportBody, (reportHandler q now ok db).1 = .ok b →
      b.oid.isSome = true →
      (reportHandler q now ok db).2.1 = db ∧
      DbOp.createReportQ ∉ (reportHandler q now ok db).2.2) := by
  rw [reportHandler_validation_cases q now ok db]
  cases hv : specValidate (rawUserParam q) (getParam q "year")
      (getParam q "month") with
  | missingParameter =>
      exact ⟨rfl, rfl, Or.inl rfl, by simp, fun s i msg _ => rfl,
        fun b hb => by simp at hb⟩
  | notPositiveInteger =>
      exact ⟨rfl, rfl, Or.inl rfl, by simp, fun s i msg _ => rfl,
        fun b hb => by simp at hb⟩
  | monthOutOfRange =>
      exact ⟨rfl, rfl, Or.inl rfl, by simp, fun s i msg _ => rfl,
        fun b hb => by simp at hb⟩
  | success u y m =>
      dsimp only
      cases hud : userExistsQ db u with
      | false =>
          rw [resolveReport_noUser u y m now ok db hud]
          exact ⟨rfl, rfl, Or.inl rfl, by simp, fun s i msg _ => rfl,
            fun b hb => by simp at hb⟩
      | true =>
          cases hpast : isPastMonth y m now with
          | false =>
              rw [resolveReport_nonPast u y m now ok db hud hpast]
              refine ⟨rfl, rfl, Or.inl rfl, by simp, ?_, ?_⟩
              · intro s i msg h
                simp at h
              · intro b hb hoid
                simp only [Resp.ok.injEq] at hb
                rw [← hb] at hoid
                simp at hoid
          | true =>
              cases hfind : findReport db u y m with
              | some d =>
                  rw [resolveReport_cacheHit u y m now ok db d hud hpast hfind]
                  refine ⟨rfl, rfl, Or.inl rfl, by simp, ?_, ?_⟩
                  · intro s i msg h
                    simp at h
                  · intro b hb hoid
                    exact ⟨rfl, by simp⟩
              | none =>
                  cases ok with
                  | false =>
                      rw [resolveReport_pastMissFail u y m now db hud hpast hfind]
                      refine ⟨rfl, rfl, Or.inl rfl, by simp, ?_, ?_⟩
                      · intro s i msg _
                        rfl
                      · intro b hb
                        simp at hb
                  | true =>
                      rw [resolveReport_pastMissCreate u y m now db hud hpast hfind]
                      refine ⟨rfl, rfl, Or.inr ⟨_, rfl, by simp⟩, by simp, ?_, ?_⟩
                      · intro s i msg h
                        simp at h
                      · intro b hb hoid
                        simp only [Resp.ok.injEq] at hb
                        rw [← hb] at hoid
                        simp at hoid

/-- C7 -- report parameter validation evaluates presence before numeric
shape before range and produces exactly one outcome: 400 "Missing required
fields." when any of userid/year/month is absent or empty; otherwise 400
"User ID, year and month must be positive integers." when any of the three
is not a positive whole number (zero, negative and fractional values all
fall in this class, and year has no upper bound); otherwise 400 "Month
number must be between 1 and 12." when the month is a positive integer
above 12; otherwise validation succeeds with three integers and the request
proceeds on them. -/
theorem reportHandler_validation_spec (q : Query) (now : Clock) (ok : Bool)
    (db : DbState) :
    reportHandler q now ok db =
      match specValidate (rawUserParam q) (getParam q "year")
          (getParam q "month") with
      | .missingParameter => (.err 400 400 "Missing required fields.", db, [])
      | .notPositiveInteger =>
          (.err 400 400 "User ID, year and month must be positive integers.",
            db, [])
      | .monthOutOfRange =>
          (.err 400 400 "Month number must be between 1 and 12.", db, [])
      | .success u y m => resolveReport u y m now ok db :=
  reportHandler_validation_cases q now ok db

/-- Amended C6 -- for a past key with an existing user and no prior cache
entry, the second identical request returns the same userid, year, month
and costs content as the first; the only difference is that the cached
response additionally carries the store-assigned `_id`. -/
theorem report_second_read_adds_id (q : Query) (now : Clock) (db : DbState)
    (u y m : ℤ) (hq : parsedParams q = some (u, y, m))
    (hu : userExistsQ db u = true) (hp : isPastMonth y m now = true)
    (hf : findReport db u y m = none) :
    (reportHandler q now true db).1 =
      .ok { oid := none, userid := u, year := y, month := m,
            costs := computedCosts db u y m } ∧
    (reportHandler q now true (reportHandler q now true db).2.1).1 =
      .ok { oid := some db.nextOid, userid := u, year := y, month := m,
            costs := computedCosts db u y m } := by
  rw [reportHandler_of_parsed q now true db u y m hq]
  rw [resolveReport_pastMissCreate u y m now db hu hp hf]
  dsimp only
  have hnew : reportKeyMatch u y m
      { oid := db.nextOid, userid := u, year := y, month := m,
        costs := computedCosts db u y m } = true := by
    simp [reportKeyMatch]
  have hf' : findReport
      { db with
          reports := db.reports ++
            [{ oid := db.nextOid, userid := u, year := y, month := m,
               costs := computedCosts db u y m }],
          nextOid := db.nextOid + 1 } u y m =
      some { oid := db.nextOid, userid := u, year := y, month := m,
             costs := computedCosts db u y m } := by
    unfold findReport at hf ⊢
    simp only [List.find?_append, hf, Option.none_or, List.find?]
    rw [hnew]
  have hu' : userExistsQ
      { db with
          reports := db.reports ++
            [{ oid := db.nextOid, userid := u, year := y, month := m,
               costs := computedCosts db u y m }],
          nextOid := db.nextOid + 1 } u = true := hu
  rw [reportHandler_of_parsed q now true
      { db with
          reports := db.reports ++
            [{ oid := db.nextOid, userid := u, year := y, month := m,
               costs := computedCosts db u y m }],
          nextOid := db.nextOid + 1 } u y m hq]
  rw [resolveReport_cacheHit u y m now true _ _ hu' hp hf']
  exact ⟨rfl, rfl⟩

/-- Counterexample to C6 as stated: a concrete past-month request pair for
user 123123 where the first response body has no `_id` while the second,
cache-served response carries `_id`; the whole bodies therefore differ,
although the userid/year/month/costs content is identical. -/
theorem report_whole_body_differs_cex :
    (reportHandler [("userid", "123123"), ("year", "2024"), ("month", "1")]
        ⟨2026, 9⟩ true
        ⟨[⟨123123⟩],
          [⟨123123, "groceries", "food", mkRat 171 2, 2024, 0, 15⟩],
          [], 0⟩).1 =
      .ok { oid := none, userid := 123123, year := 2024, month := 1,
            costs := [("food", [⟨mkRat 171 2, "groceries", 15⟩]),
                      ("health", []), ("housing", []), ("sports", []),
                      ("education", [])] } ∧
    (reportHandler [("userid", "123123"), ("year", "2024"), ("month", "1")]
        ⟨2026, 9⟩ true
        (reportHandler [("userid", "123123"), ("year", "2024"), ("month", "1")]
          ⟨2026, 9⟩ true
          ⟨[⟨123123⟩],
            [⟨123123, "groceries", "food", mkRat 171 2, 2024, 0, 15⟩],
            [], 0⟩).2.1).1 =
      .ok { oid := some 0, userid := 123123, year := 2024, month := 1,
            costs := [("food", [⟨mkRat 171 2, "groceries", 15⟩]),
                      ("health", []), ("housing", []), ("sports", []),
                      ("education", [])] } ∧
    Resp.ok { oid := (none : Option ℕ), userid := (123123 : ℤ),
              year := (2024 : ℤ), month := (1 : ℤ),
              costs := [("food", [⟨mkRat 171 2, "groceries", 15⟩]),
                        ("health", []), ("housing", []), ("sports", []),
                        ("education", [])] } ≠
      Resp.ok { oid := some 0, userid := 123123, year := 2024, month := 1,
                costs := [("food", [⟨mkRat 171 2, "groceries", 15⟩]),
                          ("health", []), ("housing", []), ("sports", []),
                          ("education", [])] } := by
  refine ⟨?_, ?_, ?_⟩ <;> decide

/-- Counterexample to C9 as stated: a request carrying the user identifier
under the exact query key `userId` (with valid year and month and an
existing user) is rejected with "Missing required fields."; the handler
reads only the lowercase `userid` key and its alias `id`. -/
theorem report_userId_param_rejected_cex :
    reportHandler [("userId", "123123"), ("year", "2024"), ("month", "1")]
        ⟨2026, 9⟩ true ⟨[⟨123123⟩], [], [], 0⟩ =
      (.err 400 400 "Missing required fields.",
        ⟨[⟨123123⟩], [], [], 0⟩, []) := by
  decide

/-- A request whose parameters fail validation is answered by one of the
three 400 validation errors, with the store untouched and no query issued. -/
theorem reportHandler_of_unparsed (q : Query) (now : Clock) (ok : Bool)
    (db : DbState) (h : parsedParams q = none) :
    ∃ msg, reportHandler q now ok db = (.err 400 400 msg, db, []) := by
  simp only [parsedParams] at h
  simp only [reportHandler]
  cases c1 : (!truthyOpt ((getParam q "userid").orElse fun _ => getParam q "id") ||
      !truthyOpt (getParam q "year") || !truthyOpt (getParam q "month")) with
  | true => exact ⟨_, rfl⟩
  | false =>
    simp only [Bool.false_eq_true, if_false, ite_false] at h ⊢
    cases c2 : (!jsIsInteger (jsNumberOpt ((getParam q "userid").orElse fun _ => getParam q "id")) ||
        jsNumLe (jsNumberOpt ((getParam q "userid").orElse fun _ => getParam q "id")) 0 ||
        !jsIsInteger (jsNumberOpt (getParam q "year")) ||
        jsNumLe (jsNumberOpt (getParam q "year")) 0 ||
        !jsIsInteger (jsNumberOpt (getParam q "month")) ||
        jsNumLe (jsNumberOpt (getParam q "month")) 0) with
    | true => exact ⟨_, rfl⟩
    | false =>
      simp only [Bool.false_eq_true, if_false, ite_false] at h ⊢
      cases c3 : jsNumGt (jsNumberOpt (getParam q "month")) 12 with
      | true => exact ⟨_, rfl⟩
      | false =>
        simp at h c1 c2
        obtain ⟨⟨t1, t2⟩, t3⟩ := c1
        obtain ⟨⟨⟨⟨⟨i1, l1⟩, i2⟩, l2⟩, i3⟩, l3⟩ := c2
        exact absurd (h t1 t2 t3 i1 l1 i2 l2 i3 l3) (by simp [c3])

/-- Amended C9 -- the endpoint accepts the user identifier under the query
parameter name `userid` or the alias `id` (alongside `year` and `month`),
and every successful response is a 200 whose body carries the validated
userid, year and month together with the `costs` breakdown. -/
theorem report_param_alias_and_echo (s sy sm : String) (now : Clock)
    (ok : Bool) (db : DbState) :
    reportHandler [("id", s), ("year", sy), ("month", sm)] now ok db =
      reportHandler [("userid", s), ("year", sy), ("month", sm)] now ok db ∧
    (∀ (q : Query) (b : ReportBody) (db' : DbState) (tr : List DbOp),
      reportHandler q now ok db = (.ok b, db', tr) →
      parsedParams q = some (b.userid, b.year, b.month)) := by
  constructor
  · have e1 : getParam [("id", s), ("year", sy), ("month", sm)] "userid" = none := rfl
    have e2 : getParam [("id", s), ("year", sy), ("month", sm)] "id" = some s := rfl
    have e3 : getParam [("id", s), ("year", sy), ("month", sm)] "year" = some sy := rfl
    have e4 : getParam [("id", s), ("year", sy), ("month", sm)] "month" = some sm := rfl
    have f1 : getParam [("userid", s), ("year", sy), ("month", sm)] "userid" = some s := rfl
    have f2 : getParam [("userid", s), ("year", sy), ("month", sm)] "id" = none := rfl
    have f3 : getParam [("userid", s), ("year", sy), ("month", sm)] "year" = some sy := rfl
    have f4 : getParam [("userid", s), ("year", sy), ("month", sm)] "month" = some sm := rfl
    simp only [reportHandler, e1, e2, e3, e4, f1, f2, f3, f4, Option.orElse]
  · intro q b db' tr hok
    cases hv : parsedParams q with
    | none =>
        obtain ⟨msg, heq⟩ := reportHandler_of_unparsed q now ok db hv
        rw [heq] at hok
        simp at hok
    | some t =>
        obtain ⟨u, y, m⟩ := t
        rw [reportHandler_of_parsed q now ok db u y m hv] at hok
        cases hud : userExistsQ db u with
        | false =>
            rw [resolveReport_noUser u y m now ok db hud] at hok
            simp at hok
        | true =>
            cases hpast : isPastMonth y m now with
            | false =>
                rw [resolveReport_nonPast u y m now ok db hud hpast] at hok
                simp only [Prod.mk.injEq, Resp.ok.injEq] at hok
                obtain ⟨hb, -, -⟩ := hok
                rw [← hb]
            | true =>
                cases hfind : findReport db u y m with
                | some d =>
                    rw [resolveReport_cacheHit u y m now ok db d hud hpast hfind]
                      at hok
                    have hkey : reportKeyMatch u y m d = true := by
                      unfold findReport at hfind
                      exact List.find?_some hfind
                    simp only [reportKeyMatch, decide_eq_true_eq] at hkey
                    simp only [Prod.mk.injEq, Resp.ok.injEq] at hok
                    obtain ⟨hb, -, -⟩ := hok
                    rw [← hb]
                    simp only [bodyOfDoc]
                    rw [hkey.1, hkey.2.1, hkey.2.2]
                | none =>
                    cases ok with
                    | false =>
                        rw [resolveReport_pastMissFail u y m now db hud hpast
                          hfind] at hok
                        simp at hok
                    | true =>
                        rw [resolveReport_pastMissCreate u y m now db hud hpast
                          hfind] at hok
                        simp only [Prod.mk.injEq, Resp.ok.injEq] at hok
                        obtain ⟨hb, -, -⟩ := hok
                        rw [← hb]
/-- Witness for C1: user 5, past month 2024-03 relative to October 2026,
empty store; both responses carry the same `costs` and exactly one cache
row exists afterwards. -/
theorem report_idempotent_caching_witness :
    ∃ b1 b2 : ReportBody,
      (reportHandler [("userid", "5"), ("year", "2024"), ("month", "3")]
          ⟨2026, 9⟩ true ⟨[⟨5⟩], [], [], 0⟩).1 = .ok b1 ∧
      (reportHandler [("userid", "5"), ("year", "2024"), ("month", "3")]
          ⟨2026, 9⟩ true
          (reportHandler [("userid", "5"), ("year", "2024"), ("month", "3")]
            ⟨2026, 9⟩ true ⟨[⟨5⟩], [], [], 0⟩).2.1).1 = .ok b2 ∧
      b1.costs = b2.costs ∧
      countReports
        (reportHandler [("userid", "5"), ("year", "2024"), ("month", "3")]
          ⟨2026, 9⟩ true
          (reportHandler [("userid", "5"), ("year", "2024"), ("month", "3")]
            ⟨2026, 9⟩ true ⟨[⟨5⟩], [], [], 0⟩).2.1).2.1 5 2024 3 = 1 :=
  report_idempotent_caching
    [("userid", "5"), ("year", "2024"), ("month", "3")] ⟨2026, 9⟩
    ⟨[⟨5⟩], [], [], 0⟩ 5 2024 3 (by decide) (by decide) (by decide) (by decide)

/-- Witness for C2: requesting December 2026 (a future month relative to
October 2026) twice persists nothing and never issues the cache write. -/
theorem report_nonPast_noPersist_witness :
    ((fun d => (reportHandler [("userid", "5"), ("year", "2026"), ("month", "12")]
        ⟨2026, 9⟩ true d).2.1)^[2] ⟨[⟨5⟩], [], [], 0⟩).reports =
      (⟨[⟨5⟩], [], [], 0⟩ : DbState).reports ∧
    DbOp.createReportQ ∉
      (reportHandler [("userid", "5"), ("year", "2026"), ("month", "12")]
        ⟨2026, 9⟩ true ⟨[⟨5⟩], [], [], 0⟩).2.2 :=
  ⟨(report_nonPast_noPersist
      [("userid", "5"), ("year", "2026"), ("month", "12")] ⟨2026, 9⟩ true
      ⟨[⟨5⟩], [], [], 0⟩ 5 2026 12 (by decide) (by decide)).1 2,
    (report_nonPast_noPersist
      [("userid", "5"), ("year", "2026"), ("month", "12")] ⟨2026, 9⟩ true
      ⟨[⟨5⟩], [], [], 0⟩ 5 2026 12 (by decide) (by decide)).2
      ⟨[⟨5⟩], [], [], 0⟩⟩

/-- Witness for C4: a stored cache entry for (5, 2024, 3) is returned
unmodified, with no cost query and no cache write. -/
theorem report_cacheHit_shortCircuit_witness :
    reportHandler [("userid", "5"), ("year", "2024"), ("month", "3")]
        ⟨2026, 9⟩ true
        ⟨[⟨5⟩], [],
          [⟨7, 5, 2024, 3, [("food", []), ("health", []), ("housing", []),
            ("sports", []), ("education", [])]⟩], 8⟩ =
      (.ok (bodyOfDoc ⟨7, 5, 2024, 3,
          [("food", []), ("health", []), ("housing", []), ("sports", []),
            ("education", [])]⟩),
        ⟨[⟨5⟩], [],
          [⟨7, 5, 2024, 3, [("food", []), ("health", []), ("housing", []),
            ("sports", []), ("education", [])]⟩], 8⟩,
        [.userExistsQ, .findReportQ]) ∧
    DbOp.findCostsQ ∉
      (reportHandler [("userid", "5"), ("year", "2024"), ("month", "3")]
        ⟨2026, 9⟩ true
        ⟨[⟨5⟩], [],
          [⟨7, 5, 2024, 3, [("food", []), ("health", []), ("housing", []),
            ("sports", []), ("education", [])]⟩], 8⟩).2.2 ∧
    DbOp.createReportQ ∉
      (reportHandler [("userid", "5"), ("year", "2024"), ("month", "3")]
        ⟨2026, 9⟩ true
        ⟨[⟨5⟩], [],
          [⟨7, 5, 2024, 3, [("food", []), ("health", []), ("housing", []),
            ("sports", []), ("education", [])]⟩], 8⟩).2.2 :=
  report_cacheHit_shortCircuit
    [("userid", "5"), ("year", "2024"), ("month", "3")] ⟨2026, 9⟩ true
    ⟨[⟨5⟩], [],
      [⟨7, 5, 2024, 3, [("food", []), ("health", []), ("housing", []),
        ("sports", []), ("education", [])]⟩], 8⟩ 5 2024 3
    ⟨7, 5, 2024, 3, [("food", []), ("health", []), ("housing", []),
      ("sports", []), ("education", [])]⟩
    (by decide) (by decide) (by decide) (by decide)

/-- Witness for amended C6: first response has no `_id`, second carries the
freshly assigned one, with identical content otherwise. -/
theorem report_second_read_adds_id_witness :
    (reportHandler [("userid", "5"), ("year", "2024"), ("month", "3")]
        ⟨2026, 9⟩ true ⟨[⟨5⟩], [], [], 0⟩).1 =
      .ok { oid := none, userid := 5, year := 2024, month := 3,
            costs := computedCosts ⟨[⟨5⟩], [], [], 0⟩ 5 2024 3 } ∧
    (reportHandler [("userid", "5"), ("year", "2024"), ("month", "3")]
        ⟨2026, 9⟩ true
        (reportHandler [("userid", "5"), ("year", "2024"), ("month", "3")]
          ⟨2026, 9⟩ true ⟨[⟨5⟩], [], [], 0⟩).2.1).1 =
      .ok { oid := some 0, userid := 5, year := 2024, month := 3,
            costs := computedCosts ⟨[⟨5⟩], [], [], 0⟩ 5 2024 3 } :=
  report_second_read_adds_id
    [("userid", "5"), ("year", "2024"), ("month", "3")] ⟨2026, 9⟩
    ⟨[⟨5⟩], [], [], 0⟩ 5 2024 3 (by decide) (by decide) (by decide) (by decide)

/-- Witness for C8: with the store rejecting the cache insert, the
uncached past-month request answers 500. -/
theorem report_cacheWriteFail_500_witness :
    reportHandler [("userid", "5"), ("year", "2024"), ("month", "3")]
        ⟨2026, 9⟩ false ⟨[⟨5⟩], [], [], 0⟩ =
      (.err 500 500 "Internal server error.", ⟨[⟨5⟩], [], [], 0⟩,
        [.userExistsQ, .findReportQ, .findCostsQ, .createReportQ]) :=
  report_cacheWriteFail_500
    [("userid", "5"), ("year", "2024"), ("month", "3")] ⟨2026, 9⟩
    ⟨[⟨5⟩], [], [], 0⟩ 5 2024 3 (by decide) (by decide) (by decide) (by decide)

/-- Witness for amended C9: the `id` spelling behaves exactly like
`userid`, and a successful run echoes its validated parameters. -/
theorem report_param_alias_and_echo_witness :
    reportHandler [("id", "5"), ("year", "2024"), ("month", "3")]
        ⟨2026, 9⟩ true ⟨[⟨5⟩], [], [], 0⟩ =
      reportHandler [("userid", "5"), ("year", "2024"), ("month", "3")]
        ⟨2026, 9⟩ true ⟨[⟨5⟩], [], [], 0⟩ ∧
    parsedParams [("userid", "5"), ("year", "2024"), ("month", "3")] =
      some (5, 2024, 3) :=
  ⟨(report_param_alias_and_echo "5" "2024" "3" ⟨2026, 9⟩ true
      ⟨[⟨5⟩], [], [], 0⟩).1,
    (report_param_alias_and_echo "5" "2024" "3" ⟨2026, 9⟩ true
      ⟨[⟨5⟩], [], [], 0⟩).2
      [("userid", "5"), ("year", "2024"), ("month", "3")]
      { oid := none, userid := 5, year := 2024, month := 3,
        costs := [("food", []), ("health", []), ("housing", []),
          ("sports", []), ("education", [])] }
      ⟨[⟨5⟩], [],
        [⟨0, 5, 2024, 3, [("food", []), ("health", []), ("housing", []),
          ("sports", []), ("education", [])]⟩], 1⟩
      [.userExistsQ, .findReportQ, .findCostsQ, .createReportQ] (by decide)⟩

/-- Witness for C10: a request missing all parameters leaves the store
exactly as it was, and a well-formed request leaves the users collection
unchanged. -/
theorem report_frame_effects_witness :
    (reportHandler [] ⟨2026, 9⟩ true ⟨[⟨5⟩], [], [], 0⟩).2.1 =
      ⟨[⟨5⟩], [], [], 0⟩ ∧
    (reportHandler [("userid", "5"), ("year", "2024"), ("month", "3")]
        ⟨2026, 9⟩ true ⟨[⟨5⟩], [], [], 0⟩).2.1.users =
      (⟨[⟨5⟩], [], [], 0⟩ : DbState).users :=
  ⟨(report_frame_effects [] ⟨2026, 9⟩ true ⟨[⟨5⟩], [], [], 0⟩).2.2.2.2.1
      400 400 "Missing required fields." (by decide),
    (report_frame_effects [("userid", "5"), ("year", "2024"), ("month", "3")]
      ⟨2026, 9⟩ true ⟨[⟨5⟩], [], [], 0⟩).1⟩

/-- No registry category collides with an `Object.prototype` member name. -/
theorem protoKeys_not_categories : ∀ x ∈ objectProtoKeys, x ∉ CATEGORIES := by
  decide

/-- A self-keyed table has an entry for `cat` exactly when `cat` is one of
its keys. -/
theorem find?_isSome_keyed (l : List String) (s : String → List CostEntry)
    (cat : String) :
    ((l.map fun c => (c, s c)).find? (fun p => decide (p.1 = cat))).isSome =
      true ↔ cat ∈ l := by
  induction l with
  | nil => simp
  | cons a l ih =>
    by_cases ha : a = cat
    · subst ha
      simp [List.find?]
    · have ha' : cat ≠ a := fun h => ha h.symm
      simp [List.find?, ha, ih, ha']

/-- `pushToJs` on a registry-keyed table: push on a registry key, throw on a
prototype-member key, no-op otherwise. -/
theorem pushToJs_keyed (s : String → List CostEntry) (cat : String)
    (e : CostEntry) :
    pushToJs (CATEGORIES.map fun c => (c, s c)) cat e =
      if cat ∈ CATEGORIES then
        some (pushTo (CATEGORIES.map fun c => (c, s c)) cat e)
      else if cat ∈ objectProtoKeys then none
      else some (CATEGORIES.map fun c => (c, s c)) := by
  unfold pushToJs
  by_cases hc : cat ∈ CATEGORIES
  · have := (find?_isSome_keyed CATEGORIES s cat).mpr hc
    cases hfind : (CATEGORIES.map fun c => (c, s c)).find?
        (fun p => decide (p.1 = cat)) with
    | none => rw [hfind] at this; simp at this
    | some p => simp [hc]
  · have hns : ¬ (((CATEGORIES.map fun c => (c, s c)).find?
        (fun p => decide (p.1 = cat))).isSome = true) :=
      fun h => hc ((find?_isSome_keyed CATEGORIES s cat).mp h)
    cases hfind : (CATEGORIES.map fun c => (c, s c)).find?
        (fun p => decide (p.1 = cat)) with
    | none => simp [hc]
    | some p => rw [hfind] at hns; simp at hns

/-- Pushing a non-registry key into a registry-keyed table changes nothing. -/
theorem pushTo_not_key (s : String → List CostEntry) (cat : String)
    (e : CostEntry) (hc : cat ∉ CATEGORIES) :
    pushTo (CATEGORIES.map fun c => (c, s c)) cat e =
      CATEGORIES.map fun c => (c, s c) := by
  rw [pushTo_map]
  apply List.map_congr_left
  intro a ha
  have : a ≠ cat := fun h => hc (h ▸ ha)
  simp [this]

/-- When no in-month cost category collides with a prototype member, the
exact grouping loop succeeds and agrees with the envelope fold. -/
theorem buildGroupedJsGo_safe (L : List CostRec) (y m : ℤ)
    (s : String → List CostEntry)
    (h : ∀ c ∈ L, costInMonth c y m = true → c.category ∉ objectProtoKeys) :
    buildGroupedJsGo (CATEGORIES.map fun cat => (cat, s cat)) L y m =
      some (L.foldl
        (fun g c =>
          if costInMonth c y m then pushTo g c.category (mkEntry c) else g)
        (CATEGORIES.map fun cat => (cat, s cat))) := by
  induction L generalizing s with
  | nil => rfl
  | cons c L ih =>
    have htail : ∀ c' ∈ L, costInMonth c' y m = true →
        c'.category ∉ objectProtoKeys :=
      fun c' hc' => h c' (List.mem_cons_of_mem c hc')
    unfold buildGroupedJsGo
    simp only [List.foldl_cons]
    by_cases hc : costInMonth c y m
    · simp only [hc, if_true, ite_true]
      by_cases hcat : c.category ∈ CATEGORIES
      · rw [pushToJs_keyed, if_pos hcat]
        rw [pushTo_map]
        exact ih (fun cat =>
          if cat = c.category then s cat ++ [mkEntry c] else s cat) htail
      · have hnp : c.category ∉ objectProtoKeys :=
          h c (List.mem_cons_self c L) hc
        rw [pushToJs_keyed, if_neg hcat, if_neg hnp]
        rw [pushTo_not_key s c.category (mkEntry c) hcat]
        exact ih s htail
    · simp only [hc, if_false, ite_false]
      exact ih s htail

/-- An in-month cost whose category collides with a prototype member makes
the exact grouping loop throw. -/
theorem buildGroupedJsGo_poisoned (L : List CostRec) (y m : ℤ)
    (s : String → List CostEntry)
    (h : ∃ c ∈ L, costInMonth c y m = true ∧ c.category ∈ objectProtoKeys) :
    buildGroupedJsGo (CATEGORIES.map fun cat => (cat, s cat)) L y m = none := by
  induction L generalizing s with
  | nil =>
    obtain ⟨c, hc, -⟩ := h
    cases hc
  | cons c L ih =>
    unfold buildGroupedJsGo
    by_cases hcm : costInMonth c y m
    · simp only [hcm, if_true, ite_true]
      by_cases hpk : c.category ∈ objectProtoKeys
      · have hnc : c.category ∉ CATEGORIES := protoKeys_not_categories _ hpk
        rw [pushToJs_keyed, if_neg hnc, if_pos hpk]
      · have h' : ∃ c' ∈ L, costInMonth c' y m = true ∧
            c'.category ∈ objectProtoKeys := by
          obtain ⟨c0, hc0, hm0, hk0⟩ := h
          rcases List.mem_cons.mp hc0 with rfl | hc0'
          · exact absurd hk0 hpk
          · exact ⟨c0, hc0', hm0, hk0⟩
        by_cases hcat : c.category ∈ CATEGORIES
        · rw [pushToJs_keyed, if_pos hcat, pushTo_map]
          exact ih (fun cat =>
            if cat = c.category then s cat ++ [mkEntry c] else s cat) h'
        · rw [pushToJs_keyed, if_neg hcat, if_neg hpk]
          exact ih s h'
    · simp only [hcm, if_false, ite_false]
      have h' : ∃ c' ∈ L, costInMonth c' y m = true ∧
          c'.category ∈ objectProtoKeys := by
        obtain ⟨c0, hc0, hm0, hk0⟩ := h
        rcases List.mem_cons.mp hc0 with rfl | hc0'
        · exact absurd hm0 hcm
        · exact ⟨c0, hc0', hm0, hk0⟩
      exact ih s h'

/-- On prototype-safe cost sets the exact grouping agrees with `buildGrouped`. -/
theorem buildGroupedJs_safe (L : List CostRec) (y m : ℤ)
    (h : ∀ c ∈ L, costInMonth c y m = true → c.category ∉ objectProtoKeys) :
    buildGroupedJs L y m = some (buildGrouped L y m) :=
  buildGroupedJsGo_safe L y m (fun _ => []) h

/-- A poisoned in-month cost makes the exact grouping throw. -/
theorem buildGroupedJs_poisoned (L : List CostRec) (y m : ℤ)
    (h : ∃ c ∈ L, costInMonth c y m = true ∧ c.category ∈ objectProtoKeys) :
    buildGroupedJs L y m = none :=
  buildGroupedJsGo_poisoned L y m (fun _ => []) h

/-- On prototype-safe stores the exact post-validation handler coincides
with the envelope one. -/
theorem resolveReportJs_of_safe (u y m : ℤ) (now : Clock) (ok : Bool)
    (db : DbState)
    (hsafe : ∀ c ∈ findCosts db u, costInMonth c y m = true →
      c.category ∉ objectProtoKeys) :
    resolveReportJs u y m now ok db = resolveReport u y m now ok db := by
  unfold resolveReportJs resolveReport
  cases hud : userExistsQ db u with
  | false => rfl
  | true =>
    simp only [Bool.not_true, Bool.false_eq_true, if_false, ite_false]
    cases hc : (if isPastMonth y m now then findReport db u y m else none) with
    | some d => rfl
    | none =>
      simp only
      rw [buildGroupedJs_safe (findCosts db u) y m hsafe]

/-- A poisoned in-month cost on the compute path surfaces as the catch-all
500 before any cache write. -/
theorem resolveReportJs_500_of_poisoned (u y m : ℤ) (now : Clock) (ok : Bool)
    (db : DbState) (hu : userExistsQ db u = true)
    (hfresh : isPastMonth y m now = false ∨ findReport db u y m = none)
    (hpois : ∃ c ∈ findCosts db u, costInMonth c y m = true ∧
      c.category ∈ objectProtoKeys) :
    (resolveReportJs u y m now ok db).1 =
      .err 500 500 "Internal server error." := by
  unfold resolveReportJs
  simp only [hu, Bool.not_true, Bool.false_eq_true, if_false, ite_false]
  have hc : (if isPastMonth y m now then findReport db u y m else none) =
      none := by
    rcases hfresh with h | h
    · simp [h]
    · cases hp : isPastMonth y m now <;> simp [h]
  rw [hc]
  simp only
  rw [buildGroupedJs_poisoned (findCosts db u) y m hpois]

/-- A request whose parameters validate to `(u, y, m)` behaves, in the
exact model, as the exact post-validation handler on those integers. -/
theorem reportHandlerJs_of_parsed (q : Query) (now : Clock) (ok : Bool)
    (db : DbState) (u y m : ℤ) (h : parsedParams q = some (u, y, m)) :
    reportHandlerJs q now ok db = resolveReportJs u y m now ok db := by
  simp only [parsedParams] at h
  simp only [reportHandlerJs]
  simp at h
  obtain ⟨⟨⟨t1, t2⟩, t3⟩, ⟨⟨⟨⟨⟨i1, l1⟩, i2⟩, l2⟩, i3⟩, l3⟩, g12, e1, e2, e3⟩ := h
  simp only [t1, t2, t3, i1, l1, i2, l2, i3, l3, g12,
    Bool.not_true, Bool.false_or, Bool.or_false, Bool.or_self,
    Bool.false_eq_true, if_false, ite_false, if_true, ite_true]
  rw [e1, e2, e3]

/-- Amended C5 -- on every valid request answered by fresh computation
whose in-month categories do not collide with inherited `Object.prototype`
member names, the returned `costs` payload has exactly one entry per
registered category in registry order, each the order-preserving list of
the user's costs dated in the requested calendar (year, 1-indexed month)
with that category; an unregistered category of that kind is silently
dropped; but an in-month cost whose category collides with a prototype
member name (for example "constructor" or "toString") makes the grouping
access throw, and the request fails with 500 "Internal server error."
instead of dropping it. -/
theorem report_costs_grouping_corrected (q : Query) (now : Clock)
    (db : DbState) (u y m : ℤ) (hq : parsedParams q = some (u, y, m))
    (hu : userExistsQ db u = true)
    (hfresh : isPastMonth y m now = false ∨ findReport db u y m = none) :
    ((∀ c ∈ findCosts db u, costInMonth c y m = true →
        c.category ∉ objectProtoKeys) →
      ∃ b : ReportBody,
        (reportHandlerJs q now true db).1 = .ok b ∧
        b.costs =
          CATEGORIES.map (fun cat => (cat, specCategoryList db u y m cat)) ∧
        b.costs.map Prod.fst = CATEGORIES) ∧
    ((∃ c ∈ findCosts db u, costInMonth c y m = true ∧
        c.category ∈ objectProtoKeys) →
      (reportHandlerJs q now true db).1 =
        .err 500 500 "Internal server error.") := by
  constructor
  · intro hsafe
    rw [reportHandlerJs_of_parsed q now true db u y m hq,
      resolveReportJs_of_safe u y m now true db hsafe]
    cases hpast : isPastMonth y m now with
    | false =>
        rw [resolveReport_nonPast u y m now true db hu hpast]
        refine ⟨_, rfl, ?_, ?_⟩
        · exact computedCosts_eq db u y m
        · rw [computedCosts_eq, List.map_map]
          simp [Function.comp_def]
    | true =>
        have hf : findReport db u y m = none := by
          rcases hfresh with h | h
          · rw [hpast] at h
            cases h
          · exact h
        rw [resolveReport_pastMissCreate u y m now db hu hpast hf]
        refine ⟨_, rfl, ?_, ?_⟩
        · exact computedCosts_eq db u y m
        · rw [computedCosts_eq, List.map_map]
          simp [Function.comp_def]
  · intro hpois
    rw [reportHandlerJs_of_parsed q now true db u y m hq]
    exact resolveReportJs_500_of_poisoned u y m now true db hu hfresh hpois

/-- Counterexample to C5 as stated: user 5 has one cost in the requested
past month whose category is the unregistered name "constructor"; because
`groupedCats` inherits that key from `Object.prototype`, the optional-chain
access is non-nullish, the `push` call throws, and the request answers 500
with nothing persisted -- the cost is not silently dropped. -/
theorem report_protoCategory_500_cex :
    reportHandlerJs [("userid", "5"), ("year", "2024"), ("month", "3")]
        ⟨2026, 9⟩ true
        ⟨[⟨5⟩], [⟨5, "weird", "constructor", 1, 2024, 2, 10⟩], [], 0⟩ =
      (.err 500 500 "Internal server error.",
        ⟨[⟨5⟩], [⟨5, "weird", "constructor", 1, 2024, 2, 10⟩], [], 0⟩,
        [.userExistsQ, .findReportQ, .findCostsQ]) := by
  decide

/-- Witness for amended C5: a store with a registered in-month cost, an
unregistered non-colliding one (dropped) and an out-of-month one yields the
grouped shape, while a store with an in-month "toString" cost yields 500. -/
theorem report_costs_grouping_corrected_witness :
    (∃ b : ReportBody,
      (reportHandlerJs [("userid", "5"), ("year", "2024"), ("month", "3")]
          ⟨2026, 9⟩ true
          ⟨[⟨5⟩],
            [⟨5, "lunch", "food", 20, 2024, 2, 14⟩,
             ⟨5, "mystery", "junk", 9, 2024, 2, 15⟩,
             ⟨5, "rent", "housing", 900, 2024, 3, 1⟩],
            [], 0⟩).1 = .ok b ∧
      b.costs = CATEGORIES.map (fun cat =>
        (cat, specCategoryList
          ⟨[⟨5⟩],
            [⟨5, "lunch", "food", 20, 2024, 2, 14⟩,
             ⟨5, "mystery", "junk", 9, 2024, 2, 15⟩,
             ⟨5, "rent", "housing", 900, 2024, 3, 1⟩],
            [], 0⟩ 5 2024 3 cat)) ∧
      b.costs.map Prod.fst = CATEGORIES) ∧
    (reportHandlerJs [("userid", "5"), ("year", "2024"), ("month", "3")]
        ⟨2026, 9⟩ true
        ⟨[⟨5⟩], [⟨5, "odd", "toString", 2, 2024, 2, 11⟩], [], 0⟩).1 =
      .err 500 500 "Internal server error." :=
  ⟨(report_costs_grouping_corrected
      [("userid", "5"), ("year", "2024"), ("month", "3")] ⟨2026, 9⟩
      ⟨[⟨5⟩],
        [⟨5, "lunch", "food", 20, 2024, 2, 14⟩,
         ⟨5, "mystery", "junk", 9, 2024, 2, 15⟩,
         ⟨5, "rent", "housing", 900, 2024, 3, 1⟩],
        [], 0⟩ 5 2024 3 (by decide) (by decide) (Or.inr (by decide))).1
      (by decide),
    (report_costs_grouping_corrected
      [("userid", "5"), ("year", "2024"), ("month", "3")] ⟨2026, 9⟩
      ⟨[⟨5⟩], [⟨5, "odd", "toString", 2, 2024, 2, 11⟩], [], 0⟩ 5 2024 3
      (by decide) (by decide) (Or.inr (by decide))).2 (by decide)⟩
